import Mathlib

/-!
The escalation-policy fetcher of hal-9001, `plugins/pagerduty/pd_policy.go`.

A shallow embedding of the escalation-policy fetcher: the process-wide
`policyCache`, `IsPolicyCached` and `GetEscalationPolicies` with its
pagination loop.

Conventions of the embedding.

* A Go slice whose nil-ness is observed (`policyCache.policies`) is an
  `Option (List _)`, `none` being the nil slice. The slices of policies are
  lists of `EscalationPolicy` structs, copied struct by struct as `append` does.
* The slices inside an `EscalationPolicy` struct (`EscalationRules`,
  `Services`, `OnCall`) are slice headers (`Slice`: address, length,
  capacity). The arrays behind them live in the memory of the process, which
  is part of the world `W`: copying a struct copies the headers, not the
  arrays, and `json.Unmarshal` reads and writes the memory.
* Go `int` is the 64-bit two's-complement integer of the usual targets: an
  `Int` value, with `addInt` wrapping the one addition the function performs
  (`offset + limit`).
* `time.Time` is an instant counted in nanoseconds (`Int`); `Add` and `Before`
  are addition and strict order on instants.
* Everything outside the file is a collaborator passed in `Collaborators`:
  the clock `time.Now`, the package functions `pagedUrl` and
  `authenticatedGet` (declared in other files of the package),
  `ioutil.ReadAll` and `json.Unmarshal`. Collaborators that perform I/O thread
  a world of type `W`. `json.Unmarshal(data, &epresp)` decodes into the
  response struct of the previous iteration, so the decoder receives that
  struct and the world and hands back the updated struct and world.
* The `log` calls have no effect on the results and are left out.
* The model records every call of `authenticatedGet` in `State.requests`
  (ghost state, in call order) so that requests can be counted.
* The `for` loop has no bound; `forLoop` runs it for a given number of
  iterations and reports `Step.next` when the loop would go round again.
-/

namespace Pagerduty

/-- A Go `error` value that is not nil. -/
abbrev GoError := String

/-- An instant of `time.Time`, in nanoseconds. -/
abbrev Time := Int

/-- The duration `time.Hour`, in nanoseconds. -/
def Hour : Int := 3600000000000

/-- The method `Time.Add`. -/
def Time.Add (t : Time) (d : Int) : Time := t + d

/-- The method `Time.Before`. -/
def Time.Before (t u : Time) : Bool := decide (t < u)

/-- Reduction of an integer to the range of a 64-bit Go `int`. -/
def wrapInt (x : Int) : Int := (x + 2 ^ 63) % 2 ^ 64 - 2 ^ 63

/-- Go `a + b` on `int`. -/
def addInt (a b : Int) : Int := wrapInt (a + b)

/-- Go struct `RuleObject` (pd_policy.go:40-47). -/
structure RuleObject where
  Id : String
  Name : String
  Type_ : String
  Email : String
  Timezone : String
  Color : String

/-- Go struct `EscalationRule` (pd_policy.go:34-38). -/
structure EscalationRule where
  Id : String
  EscalationDelayInMinutes : Int
  RuleObject : RuleObject

/-- Go struct `Service` (pd_policy.go:49-55). -/
structure Service where
  Id : String
  Name : String
  IntegrationEmail : String
  HtmlUrl : String
  EscalationPolicyId : String

/-- A Go slice header: the address of the backing array (0 for none), the
length and the capacity. -/
structure Slice where
  addr : Nat
  len : Nat
  cap : Nat

/-- The nil slice. -/
def Slice.nil : Slice := { addr := 0, len := 0, cap := 0 }

/-- Go struct `EscalationPolicy` (pd_policy.go:25-32) as it lies in memory:
strings, an integer and the headers of its three slices. -/
structure EscalationPolicy where
  Id : String
  Name : String
  EscalationRules : Slice
  Services : Slice
  OnCall : Slice
  NumLoops : Int

/-- Go struct `EscalationPolicyResponse` (pd_policy.go:18-23). -/
structure EscalationPolicyResponse where
  EscalationPolicies : List EscalationPolicy
  Limit : Int
  Offset : Int
  Total : Int

/-- The composite literal `EscalationPolicyResponse{}` (pd_policy.go:76). -/
def EscalationPolicyResponse.zero : EscalationPolicyResponse :=
  { EscalationPolicies := [], Limit := 0, Offset := 0, Total := 0 }

/-- The package variable `policyCache` (pd_policy.go:13-16). -/
structure PolicyCache where
  policies : Option (List EscalationPolicy)
  timestamp : Time

/-- The value of `policyCache` at process start: nil slice, zero time. -/
def PolicyCache.initial : PolicyCache :=
  { policies := none, timestamp := 0 }

/-- One call of `authenticatedGet`, with the arguments `pagedUrl` was given to
build its URL. -/
structure Request where
  path : String
  domain : String
  offset : Int
  limit : Int
  url : String
  token : String
  extra : String

/-- The functions `GetEscalationPolicies` calls and this file does not define. -/
structure Collaborators (W Resp : Type) where
  /-- The clock, `time.Now()`. -/
  now : W → Time × W
  /-- The package function `pagedUrl(path, domain, offset, limit)`. -/
  pagedUrl : String → String → Int → Int → String
  /-- The package function `authenticatedGet(url, token, extra)`. -/
  authenticatedGet : String → String → String → W → Except GoError Resp × W
  /-- The call `ioutil.ReadAll(resp.Body)`: the bytes read and its error. -/
  readAll : Resp → W → (List UInt8 × Option GoError) × W
  /-- The call `json.Unmarshal(data, &epresp)`: its error and the struct
  afterwards, given the struct before; it decodes in the memory of the
  process, so it takes the world and hands it back. -/
  unmarshal : List UInt8 → EscalationPolicyResponse → W →
    (Option GoError × EscalationPolicyResponse) × W

/-- The state a call starts from and leaves behind. -/
structure State (W : Type) where
  policyCache : PolicyCache
  world : W
  requests : List Request

/-- The state of a process that has just started, in world `w`. -/
def State.initial {W : Type} (w : W) : State W :=
  { policyCache := PolicyCache.initial, world := w, requests := [] }

/-- The local variables of `GetEscalationPolicies` that live across iterations
(pd_policy.go:75-77); `limit` is the constant below. -/
structure Locals where
  policies : List EscalationPolicy
  epresp : EscalationPolicyResponse
  offset : Int

/-- The local `limit := 100` (pd_policy.go:78), never assigned again. -/
def limit : Int := 100

/-- The resource path passed to `pagedUrl` (pd_policy.go:81). -/
def onCallPath : String := "/api/v1/escalation_policies/on_call"

/-- The locals on entry to the loop (pd_policy.go:75-78). -/
def Locals.start : Locals :=
  { policies := [], epresp := EscalationPolicyResponse.zero, offset := 0 }

/-- How one pass through the loop body ends. -/
inductive Step (W : Type) where
  /-- The offset was bumped and the loop goes round again. -/
  | next (l : Locals) (s : State W)
  /-- The statement `break`. -/
  | brk (l : Locals) (s : State W)
  /-- The statement `return policies, err`. -/
  | ret (policies : List EscalationPolicy) (err : GoError) (s : State W)

/-- The request the loop body issues when the local offset is `off`. -/
def requestAt {W Resp : Type} (c : Collaborators W Resp) (token domain : String)
    (off : Int) : Request :=
  { path := onCallPath, domain := domain, offset := off, limit := limit,
    url := c.pagedUrl onCallPath domain off limit, token := token, extra := "" }

/-- The loop body (pd_policy.go:81-105). -/
def loopBody {W Resp : Type} (c : Collaborators W Resp) (token domain : String)
    (l : Locals) (s : State W) : Step W :=
  let url := c.pagedUrl onCallPath domain l.offset limit
  let got := c.authenticatedGet url token "" s.world
  let s1 : State W :=
    { s with world := got.2, requests := s.requests ++ [requestAt c token domain l.offset] }
  match got.1 with
  | .error err => .ret l.policies err s1
  | .ok resp =>
    let read := c.readAll resp s1.world
    let dec := c.unmarshal read.1.1 l.epresp read.2
    let s2 : State W := { s1 with world := dec.2 }
    match dec.1.1 with
    | some err => .ret l.policies err s2
    | none =>
      let epresp := dec.1.2
      let policies := l.policies ++ epresp.EscalationPolicies
      if epresp.Offset < epresp.Total then
        .next { policies := policies, epresp := epresp, offset := addInt l.offset limit } s2
      else
        .brk { policies := policies, epresp := epresp, offset := l.offset } s2

/-- The `for` loop (pd_policy.go:80-106) run for at most `fuel` iterations.
`Step.next l s` says the loop is still going, about to start an iteration
from `l` and `s`. -/
def forLoop {W Resp : Type} (c : Collaborators W Resp) (token domain : String) :
    Nat → Locals → State W → Step W
  | 0, l, s => .next l s
  | fuel + 1, l, s =>
    match loopBody c token domain l s with
    | .next l1 s1 => forLoop c token domain fuel l1 s1
    | .brk l1 s1 => .brk l1 s1
    | .ret p e s1 => .ret p e s1

/-- What a call has done once its fuel is spent. -/
inductive Run (W : Type) where
  /-- The call returned `policies, err` (`none` is the nil error). -/
  | returned (policies : List EscalationPolicy) (err : Option GoError) (s : State W)
  /-- The call is still inside its loop. -/
  | running (l : Locals) (s : State W)

/-- The state a run has reached. -/
def Run.state {W : Type} : Run W → State W
  | .returned _ _ s => s
  | .running _ s => s

/-- The policies a call returned, none while it is running. -/
def Run.policies {W : Type} : Run W → List EscalationPolicy
  | .returned p _ _ => p
  | .running _ _ => []

/-- The error a call returned, `none` for the nil error and while it is running. -/
def Run.err {W : Type} : Run W → Option GoError
  | .returned _ e _ => e
  | .running _ _ => none

/-- Whether the call has returned. -/
def Run.isReturned {W : Type} : Run W → Bool
  | .returned _ _ _ => true
  | .running _ _ => false

/-- What follows the loop: a `return` inside it ends the call, and after
`break` the cache is written and the policies returned (pd_policy.go:108-112). -/
def finish {W Resp : Type} (c : Collaborators W Resp) : Step W → Run W
  | .next l s1 => .running l s1
  | .ret p e s1 => .returned p (some e) s1
  | .brk l s1 =>
    let t := c.now s1.world
    .returned l.policies none
      { s1 with policyCache := { policies := some l.policies, timestamp := t.1 }, world := t.2 }

/-- The uncached part of `GetEscalationPolicies` (pd_policy.go:75-112). -/
def fetch {W Resp : Type} (c : Collaborators W Resp) (fuel : Nat) (token domain : String)
    (s : State W) : Run W :=
  finish c (forLoop c token domain fuel Locals.start s)

/-- The function `GetEscalationPolicies` (pd_policy.go:64-113). -/
def GetEscalationPolicies {W Resp : Type} (c : Collaborators W Resp) (fuel : Nat)
    (token domain : String) (s : State W) : Run W :=
  match s.policyCache.policies with
  | some cached =>
    let now := c.now s.world
    if now.1.Before (s.policyCache.timestamp.Add Hour) then
      .returned cached none { s with world := now.2 }
    else
      fetch c fuel token domain { s with world := now.2 }
  | none => fetch c fuel token domain s

/-- The function `IsPolicyCached` (pd_policy.go:57-62): its result and the
state it leaves. -/
def IsPolicyCached {W : Type} (s : State W) : Bool × State W :=
  match s.policyCache.policies with
  | none => (false, s)
  | some _ => (true, s)

/-! ## Describing what the collaborators do -/

/-- What the collaborators hand back for the request at local offset `off`,
issued in world `w` and decoded into the struct `prev`: the decoded response,
or the error of the GET or of the decoder, and the world afterwards. -/
def servePage {W Resp : Type} (c : Collaborators W Resp) (token domain : String)
    (off : Int) (prev : EscalationPolicyResponse) (w : W) :
    Except GoError (EscalationPolicyResponse) × W :=
  let got := c.authenticatedGet (c.pagedUrl onCallPath domain off limit) token "" w
  match got.1 with
  | .error err => (.error err, got.2)
  | .ok resp =>
    let read := c.readAll resp got.2
    let dec := c.unmarshal read.1.1 prev read.2
    match dec.1.1 with
    | some err => (.error err, dec.2)
    | none => (.ok dec.1.2, dec.2)

/-- The local offset after `k` bumps, starting from `off`. -/
def bump : Nat → Int → Int
  | 0, off => off
  | k + 1, off => bump k (addInt off limit)

/-- The `k` requests the loop issues from local offset `off` on. -/
def requestsFrom {W Resp : Type} (c : Collaborators W Resp) (token domain : String) :
    Nat → Int → List Request
  | 0, _ => []
  | k + 1, off => requestAt c token domain off :: requestsFrom c token domain k (addInt off limit)

/-- The response struct after the pages `pages` were decoded into `prev` in turn. -/
def lastResp (pages : List (EscalationPolicyResponse))
    (prev : EscalationPolicyResponse) : EscalationPolicyResponse :=
  pages.getLast?.getD prev

/-- The policies of the pages `pages`, in order. -/
def policiesOf (pages : List (EscalationPolicyResponse)) :
    List EscalationPolicy :=
  (pages.map (fun p => p.EscalationPolicies)).flatten

/-- `Served c token domain pages off prev w w1`: from world `w`, with local
offset `off` and response struct `prev`, the successive requests are answered
without error by the pages `pages`, each of them with its decoded offset below
its decoded total, and `w1` is the world after the last of them. -/
def Served {W Resp : Type} (c : Collaborators W Resp) (token domain : String) :
    List (EscalationPolicyResponse) → Int → EscalationPolicyResponse → W → W → Prop
  | [], _, _, w, w1 => w1 = w
  | ep :: rest, off, prev, w, w1 =>
    (servePage c token domain off prev w).1 = .ok ep ∧ ep.Offset < ep.Total ∧
      Served c token domain rest (addInt off limit) ep (servePage c token domain off prev w).2 w1

/-- The cache check (pd_policy.go:65-73) does not serve the call: the cached
slice is nil, or the clock is not before the timestamp plus one hour. -/
def Uncached {W Resp : Type} (c : Collaborators W Resp) (s : State W) : Prop :=
  ∀ cached, s.policyCache.policies = some cached →
    ¬ (c.now s.world).1 < s.policyCache.timestamp + Hour

/-- The world in which an uncached call starts fetching: the clock has been
read if and only if the cached slice is not nil. -/
def entryWorld {W Resp : Type} (c : Collaborators W Resp) (s : State W) : W :=
  match s.policyCache.policies with
  | none => s.world
  | some _ => (c.now s.world).2

/-- The state at the end of a pass through the loop body. -/
def Step.state {W : Type} : Step W → State W
  | .next _ s => s
  | .brk _ s => s
  | .ret _ _ s => s

/-- The state after the calls `calls` (token and domain of each), made one
after the other from `s`. -/
def afterCalls {W Resp : Type} (c : Collaborators W Resp) (fuel : Nat) :
    List (String × String) → State W → State W
  | [], s => s
  | call :: rest, s =>
    afterCalls c fuel rest (GetEscalationPolicies c fuel call.1 call.2 s).state

/-- Every one of the calls `calls`, made one after the other from `s`, finds
the cached slice not nil and the clock before the timestamp plus one hour. -/
def ServedFromCache {W Resp : Type} (c : Collaborators W Resp) (fuel : Nat) :
    List (String × String) → State W → Prop
  | [], _ => True
  | call :: rest, s =>
    (s.policyCache.policies ≠ none ∧ (c.now s.world).1 < s.policyCache.timestamp + Hour) ∧
      ServedFromCache c fuel rest (GetEscalationPolicies c fuel call.1 call.2 s).state

/-- The requests a run has added to those of the state `s` it started from. -/
def issued {W : Type} (r : Run W) (s : State W) : List Request :=
  r.state.requests.drop s.requests.length

/-! ## A mock of the collaborators

The mock server is a table from the requested offset to its answer. Its world
is the current instant: the clock reads it, and a GET takes one nanosecond.
The URL spells the offset in unary after a sign, the body repeats the URL
byte for byte, and the decoder looks the offset up in the table. -/

/-- The URL the mock `pagedUrl` builds for an offset. -/
def mockUrl (off : Int) : String :=
  String.mk ((if off < 0 then '-' else '+') :: List.replicate off.natAbs '|')

/-- The bytes of a URL of the mock. -/
def mockBody (url : String) : List UInt8 :=
  url.data.map (fun ch => ch.toNat.toUInt8)

/-- The offset spelled by the bytes of a URL of the mock. -/
def mockOffset : List UInt8 → Int
  | [] => 0
  | b :: rest => if b = 45 then -(rest.length : Int) else (rest.length : Int)

/-- The collaborators of the mock server with table `table`; an error in the
table makes the GET fail. The policies of the table are structs, and this
decoder leaves the memory alone. -/
def mock (table : Int → Except GoError (EscalationPolicyResponse)) :
    Collaborators Time String where
  now := fun w => (w, w)
  pagedUrl := fun _ _ off _ => mockUrl off
  authenticatedGet := fun url _ _ w =>
    match table (mockOffset (mockBody url)) with
    | .error err => (.error err, w + 1)
    | .ok _ => (.ok url, w + 1)
  readAll := fun resp w => ((mockBody resp, none), w)
  unmarshal := fun data prev w =>
    match table (mockOffset data) with
    | .error _ => ((none, prev), w)
    | .ok ep => ((none, ep), w)

/-- A policy with the given id and nothing else. -/
def policy (id : String) : EscalationPolicy :=
  { Id := id, Name := "", EscalationRules := Slice.nil, Services := Slice.nil,
    OnCall := Slice.nil, NumLoops := 0 }

/-- A server that answers every request with an empty page of offset 0 and
total 1. -/
def moreTable : Int → Except GoError (EscalationPolicyResponse) :=
  fun _ => .ok { EscalationPolicies := [], Limit := 100, Offset := 0, Total := 1 }

/-- A server holding `t` records in all that echoes the requested offset and
serves the policies `first` at offset 0 and none elsewhere. -/
def echoTable (t : Int) (first : List EscalationPolicy) :
    Int → Except GoError (EscalationPolicyResponse) :=
  fun off =>
    .ok { EscalationPolicies := if off = 0 then first else [], Limit := 100,
          Offset := off, Total := t }

/-- The mock API of property P3 of the specification, which answers any other
offset with an empty page. -/
def mergeTable : Int → Except GoError (EscalationPolicyResponse) :=
  fun off =>
    if off = 0 then
      .ok { EscalationPolicies := [policy "A", policy "B"], Limit := 100, Offset := 0,
            Total := 150 }
    else if off = 100 then
      .ok { EscalationPolicies := [policy "C"], Limit := 100, Offset := 100, Total := 150 }
    else
      .ok { EscalationPolicies := [], Limit := 100, Offset := off, Total := 150 }

/-- The first page of the mock server `mergeTable`. -/
def pageAB : EscalationPolicyResponse :=
  { EscalationPolicies := [policy "A", policy "B"], Limit := 100, Offset := 0, Total := 150 }

/-- A state whose cache holds one policy stamped at instant 1000, met 59 minutes
later. -/
def freshState : State Time :=
  { policyCache := { policies := some [policy "A"], timestamp := 1000 },
    world := 3540000001000, requests := [] }

/-- The mock server `mock table` with a slow clock: every reading of the clock
finds it 61 minutes after the instant of the world. -/
def slowMock (table : Int → Except GoError (EscalationPolicyResponse)) :
    Collaborators Time String :=
  { mock table with now := fun w => (w, w + 3660000000000) }

/-- A state whose cache holds one policy stamped at instant 1000, met at that
very instant. -/
def stampedState : State Time :=
  { policyCache := { policies := some [policy "A"], timestamp := 1000 },
    world := 1000, requests := [] }

/-- The state a process that has just started reaches by fetching from a mock
server that holds no policy. -/
def emptyFetched : State Time :=
  { policyCache := { policies := some [], timestamp := 1 }, world := 1,
    requests := [requestAt (mock (echoTable 0 [])) "token" "domain" 0] }

/-! ## A mock whose decoder works in place

`json.Unmarshal` decodes a JSON array into the slice it finds: element `i`
of the array is decoded into cell `i` of the backing array when the array
has such a cell, and a new array is made only when the capacity runs out.
The mock below does the same for the slices of rules and of services, with
pages that spell every key except `on_call`. -/

/-- The memory of the mock: the arrays of rules and of services by address,
and the first address not in use. No array lies at address 0. -/
structure Memory where
  rules : Nat → List EscalationRule
  services : Nat → List Service
  next : Nat

/-- A memory without arrays. -/
def Memory.empty : Memory :=
  { rules := fun _ => [], services := fun _ => [], next := 1 }

/-- The world of the in-place mock: the current instant and the memory. -/
structure MemWorld where
  clock : Time
  memory : Memory

/-- Decoding the JSON array `es`, whose elements spell all their fields, into
the slice `s`, with `cells` the arrays by address and `next` the first free
address. An empty array gives an empty slice and writes nothing. Otherwise the
cells of the old array are overwritten from the front, and when the old
capacity is too small a new array takes all the elements; it is given room
for exactly these (spare room would matter only to a later, longer array). -/
def decodeArray {α : Type} (cells : Nat → List α) (next : Nat) (s : Slice) (es : List α) :
    Slice × (Nat → List α) × Nat :=
  if es.length = 0 then
    ({ addr := 0, len := 0, cap := 0 }, cells, next)
  else if es.length ≤ s.cap then
    ({ addr := s.addr, len := es.length, cap := s.cap },
      Function.update cells s.addr (es ++ (cells s.addr).drop es.length), next)
  else
    ({ addr := next, len := es.length, cap := es.length },
      Function.update
        (Function.update cells s.addr (es.take s.cap ++ (cells s.addr).drop s.cap)) next es,
      next + 1)

/-- A policy as a page of the in-place mock spells it. -/
structure PolicyJSON where
  id : String
  name : String
  rules : List EscalationRule
  services : List Service
  numLoops : Int

/-- A page of the in-place mock. -/
structure PageJSON where
  policies : List PolicyJSON
  offset : Int
  total : Int

/-- Decoding one policy into the struct `old`: the strings and the integer
are replaced, the two arrays are decoded into the slices of `old`, and the
`OnCall` header of `old` stays, the page having no such key. -/
def decodePolicy (m : Memory) (old : EscalationPolicy) (j : PolicyJSON) :
    EscalationPolicy × Memory :=
  let r := decodeArray m.rules m.next old.EscalationRules j.rules
  let sv := decodeArray m.services r.2.2 old.Services j.services
  ({ Id := j.id, Name := j.name, EscalationRules := r.1, Services := sv.1,
     OnCall := old.OnCall, NumLoops := j.numLoops },
   { rules := r.2.1, services := sv.2.1, next := sv.2.2 })

/-- The zero `EscalationPolicy`. -/
def zeroPolicy : EscalationPolicy :=
  { Id := "", Name := "", EscalationRules := Slice.nil, Services := Slice.nil,
    OnCall := Slice.nil, NumLoops := 0 }

/-- Decoding the policies of a page into the structs the previous page left:
policy `i` goes into struct `i`, or into a zero struct when the previous page
had no such struct. -/
def decodePolicies (m : Memory) :
    List EscalationPolicy → List PolicyJSON → List EscalationPolicy × Memory
  | _, [] => ([], m)
  | [], j :: js =>
    let d := decodePolicy m zeroPolicy j
    let r := decodePolicies d.2 [] js
    (d.1 :: r.1, r.2)
  | old :: olds, j :: js =>
    let d := decodePolicy m old j
    let r := decodePolicies d.2 olds js
    (d.1 :: r.1, r.2)

/-- The collaborators of the in-place mock server with table `table`; an error
in the table makes the GET fail, and a GET takes one nanosecond. -/
def inPlaceMock (table : Int → Except GoError PageJSON) : Collaborators MemWorld String where
  now := fun w => (w.clock, w)
  pagedUrl := fun _ _ off _ => mockUrl off
  authenticatedGet := fun url _ _ w =>
    match table (mockOffset (mockBody url)) with
    | .error err => (.error err, { w with clock := w.clock + 1 })
    | .ok _ => (.ok url, { w with clock := w.clock + 1 })
  readAll := fun resp w => ((mockBody resp, none), w)
  unmarshal := fun data prev w =>
    match table (mockOffset data) with
    | .error _ => ((none, prev), w)
    | .ok page =>
      let d := decodePolicies w.memory prev.EscalationPolicies page.policies
      ((none, { EscalationPolicies := d.1, Limit := 100, Offset := page.offset,
                Total := page.total }),
       { w with memory := d.2 })

/-- The ids of the rules a policy struct shows in the memory `m`. -/
def Memory.ruleIds (m : Memory) (p : EscalationPolicy) : List String :=
  ((m.rules p.EscalationRules.addr).take p.EscalationRules.len).map (fun r => r.Id)

/-- The ids of the services a policy struct shows in the memory `m`. -/
def Memory.serviceIds (m : Memory) (p : EscalationPolicy) : List String :=
  ((m.services p.Services.addr).take p.Services.len).map (fun r => r.Id)

/-- A rule with the given id and nothing else. -/
def rule (id : String) : EscalationRule :=
  { Id := id, EscalationDelayInMinutes := 0,
    RuleObject := { Id := "", Name := "", Type_ := "", Email := "", Timezone := "",
                    Color := "" } }

/-- A service with the given id and nothing else. -/
def service (id : String) : Service :=
  { Id := id, Name := "", IntegrationEmail := "", HtmlUrl := "", EscalationPolicyId := "" }

/-- The first page of the in-place servers: policy A with rule rA1 and service
sA1, policy B with neither; offset 0, total 150. -/
def firstJSON : PageJSON :=
  { policies := [{ id := "A", name := "", rules := [rule "rA1"], services := [service "sA1"],
                   numLoops := 0 },
                 { id := "B", name := "", rules := [], services := [], numLoops := 0 }],
    offset := 0, total := 150 }

/-- The second page of the in-place servers: policy C with rule rC1 and
service sC1; offset 100, total 150. -/
def secondJSON : PageJSON :=
  { policies := [{ id := "C", name := "", rules := [rule "rC1"], services := [service "sC1"],
                   numLoops := 0 }],
    offset := 100, total := 150 }

/-- The mock API of property P3 with rules and services in its policies; any
other offset is answered with an empty page. -/
def mergeJSON : Int → Except GoError PageJSON :=
  fun off =>
    if off = 0 then .ok firstJSON
    else if off = 100 then .ok secondJSON
    else .ok { policies := [], offset := off, total := 150 }

/-- The same two pages, after which every GET fails. -/
def failingJSON : Int → Except GoError PageJSON :=
  fun off =>
    if off = 0 then .ok firstJSON
    else if off = 100 then .ok secondJSON
    else .error "connection refused"

/-- The state of a process that has just started, at instant 0 and with a
memory without arrays. -/
def freshProcess : State MemWorld :=
  State.initial { clock := 0, memory := Memory.empty }

/-- The response struct after the in-place mock decoded `firstJSON` into the
zero struct in a memory without arrays: the rules of A lie at address 1 and
its services at address 2. -/
def firstDecoded : EscalationPolicyResponse :=
  { EscalationPolicies :=
      [{ Id := "A", Name := "", EscalationRules := { addr := 1, len := 1, cap := 1 },
         Services := { addr := 2, len := 1, cap := 1 }, OnCall := Slice.nil, NumLoops := 0 },
       { Id := "B", Name := "", EscalationRules := { addr := 0, len := 0, cap := 0 },
         Services := { addr := 0, len := 0, cap := 0 }, OnCall := Slice.nil, NumLoops := 0 }],
    Limit := 100, Offset := 0, Total := 150 }

/-- The rule ids and the service ids the policies of a decoded page show in
the memory the decoding left. -/
def shownIds (r : Except GoError EscalationPolicyResponse × MemWorld) :
    List (List String × List String) :=
  match r.1 with
  | .error _ => []
  | .ok ep => ep.EscalationPolicies.map (fun p => (r.2.memory.ruleIds p, r.2.memory.serviceIds p))

/-! ## Lemmas on the loop -/

theorem mockOffset_mockUrl (off : Int) : mockOffset (mockBody (mockUrl off)) = off := by
  unfold mockUrl mockBody
  by_cases h : off < 0
  · have h45 : ('-' : Char).toNat.toUInt8 = 45 := by decide
    simp only [h, if_true, List.map_cons, mockOffset, h45, List.length_map,
      List.length_replicate]
    omega
  · have h43 : ¬ (('+' : Char).toNat.toUInt8 = 45) := by decide
    simp only [h, if_false, List.map_cons, mockOffset, h43, List.length_map,
      List.length_replicate]
    omega

theorem servePage_mock (table : Int → Except GoError (EscalationPolicyResponse))
    (token domain : String) (off : Int) (prev : EscalationPolicyResponse) (w : Time) :
    servePage (mock table) token domain off prev w = (table off, w + 1) := by
  unfold servePage
  cases h : table off with
  | error err => simp [mock, mockOffset_mockUrl, h]
  | ok ep => simp [mock, mockOffset_mockUrl, h]


theorem wrapInt_of_range (x : Int) (h0 : -9223372036854775808 ≤ x)
    (h1 : x ≤ 9223372036854775807) : wrapInt x = x := by
  unfold wrapInt
  norm_num
  omega

theorem wrapInt_add_wrapInt (a b : Int) : wrapInt (wrapInt a + b) = wrapInt (a + b) := by
  unfold wrapInt
  norm_num
  omega

theorem bump_zero_eq (k : Nat) (off : Int) :
    bump k (wrapInt off) = wrapInt (off + 100 * (k : Int)) := by
  induction k generalizing off with
  | zero => simp [bump]
  | succ n ih =>
    simp only [bump, addInt, limit]
    rw [wrapInt_add_wrapInt, ih]
    congr 1
    push_cast
    ring

theorem bump_eq (k : Nat) : bump k 0 = wrapInt (100 * (k : Int)) := by
  have h := bump_zero_eq k 0
  rw [wrapInt_of_range 0 (by norm_num) (by norm_num)] at h
  simpa using h

theorem bump_small (k : Nat) (hk : k ≤ 92233720368547758) : bump k 0 = 100 * (k : Int) := by
  rw [bump_eq]
  apply wrapInt_of_range <;> omega

theorem loopBody_eq {W Resp : Type} (c : Collaborators W Resp) (token domain : String)
    (l : Locals) (s : State W) :
    loopBody c token domain l s =
      match servePage c token domain l.offset l.epresp s.world with
      | (.error err, w1) =>
        .ret l.policies err
          { s with world := w1, requests := s.requests ++ [requestAt c token domain l.offset] }
      | (.ok ep, w1) =>
        if ep.Offset < ep.Total then
          .next { policies := l.policies ++ ep.EscalationPolicies, epresp := ep,
                  offset := addInt l.offset limit }
            { s with world := w1, requests := s.requests ++ [requestAt c token domain l.offset] }
        else
          .brk { policies := l.policies ++ ep.EscalationPolicies, epresp := ep,
                 offset := l.offset }
            { s with world := w1, requests := s.requests ++ [requestAt c token domain l.offset] } := by
  unfold loopBody servePage
  simp only []
  split
  · rfl
  · split
    · rfl
    · rfl

theorem requestsFrom_length {W Resp : Type} (c : Collaborators W Resp)
    (token domain : String) (k : Nat) (off : Int) :
    (requestsFrom c token domain k off).length = k := by
  induction k generalizing off with
  | zero => rfl
  | succ n ih => simp [requestsFrom, ih]

theorem requestsFrom_succ {W Resp : Type} (c : Collaborators W Resp)
    (token domain : String) (k : Nat) (off : Int) :
    requestsFrom c token domain (k + 1) off =
      requestsFrom c token domain k off ++ [requestAt c token domain (bump k off)] := by
  induction k generalizing off with
  | zero => rfl
  | succ n ih =>
    rw [requestsFrom, ih (addInt off limit)]
    rfl

theorem requestsFrom_get {W Resp : Type} (c : Collaborators W Resp)
    (token domain : String) (k i : Nat) (off : Int) (hi : i < k) :
    (requestsFrom c token domain k off)[i]? = some (requestAt c token domain (bump i off)) := by
  induction k generalizing off i with
  | zero => omega
  | succ n ih =>
    cases i with
    | zero => simp [requestsFrom, bump]
    | succ j =>
      simp only [requestsFrom, List.getElem?_cons_succ, bump]
      exact ih j (addInt off limit) (by omega)

theorem policiesOf_cons (ep : EscalationPolicyResponse)
    (rest : List (EscalationPolicyResponse)) :
    policiesOf (ep :: rest) = ep.EscalationPolicies ++ policiesOf rest := by
  simp [policiesOf]

theorem policiesOf_append (xs ys : List (EscalationPolicyResponse)) :
    policiesOf (xs ++ ys) = policiesOf xs ++ policiesOf ys := by
  simp [policiesOf]

theorem lastResp_cons (ep prev : EscalationPolicyResponse)
    (rest : List (EscalationPolicyResponse)) :
    lastResp (ep :: rest) prev = lastResp rest ep := by
  simp [lastResp, List.getLast?_cons]

theorem forLoop_served {W Resp : Type} (c : Collaborators W Resp) (token domain : String)
    (pages : List (EscalationPolicyResponse)) :
    ∀ (off : Int) (prev : EscalationPolicyResponse) (w w1 : W),
      Served c token domain pages off prev w w1 →
      ∀ (n : Nat) (acc : List EscalationPolicy) (pc : PolicyCache) (reqs : List Request),
        forLoop c token domain (pages.length + n)
            { policies := acc, epresp := prev, offset := off }
            { policyCache := pc, world := w, requests := reqs } =
          forLoop c token domain n
            { policies := acc ++ policiesOf pages, epresp := lastResp pages prev,
              offset := bump pages.length off }
            { policyCache := pc, world := w1,
              requests := reqs ++ requestsFrom c token domain pages.length off } := by
  induction pages with
  | nil =>
    intro off prev w w1 h n acc pc reqs
    simp only [Served] at h
    subst h
    simp [policiesOf, lastResp, bump, requestsFrom]
  | cons ep rest ih =>
    intro off prev w w1 h n acc pc reqs
    obtain ⟨h1, h2, h3⟩ := h
    have hp : servePage c token domain off prev w =
        (.ok ep, (servePage c token domain off prev w).2) := Prod.ext h1 rfl
    have hlen : (ep :: rest).length + n = (rest.length + n) + 1 := by
      simp only [List.length_cons]; omega
    rw [hlen, forLoop, loopBody_eq]
    simp only []
    rw [hp]
    simp only [h2, if_true]
    rw [ih _ _ _ _ h3]
    simp [policiesOf_cons, lastResp_cons, bump, requestsFrom, List.append_assoc]

theorem fetch_running {W Resp : Type} (c : Collaborators W Resp) (token domain : String)
    (pages : List (EscalationPolicyResponse)) (w w1 : W)
    (h : Served c token domain pages 0 EscalationPolicyResponse.zero w w1)
    (pc : PolicyCache) (reqs : List Request) :
    fetch c pages.length token domain { policyCache := pc, world := w, requests := reqs } =
      .running
        { policies := policiesOf pages,
          epresp := lastResp pages EscalationPolicyResponse.zero,
          offset := bump pages.length 0 }
        { policyCache := pc, world := w1,
          requests := reqs ++ requestsFrom c token domain pages.length 0 } := by
  have := forLoop_served c token domain pages 0 _ w w1 h 0 [] pc reqs
  simp only [Nat.add_zero, List.nil_append] at this
  simp only [fetch, Locals.start, this, forLoop, finish]

theorem fetch_success {W Resp : Type} (c : Collaborators W Resp) (token domain : String)
    (pages : List (EscalationPolicyResponse)) (final : EscalationPolicyResponse)
    (w w1 w2 : W)
    (h : Served c token domain pages 0 EscalationPolicyResponse.zero w w1)
    (hlast : servePage c token domain (bump pages.length 0)
      (lastResp pages EscalationPolicyResponse.zero) w1 = (.ok final, w2))
    (hstop : ¬ final.Offset < final.Total)
    (fuel : Nat) (hfuel : pages.length < fuel)
    (pc : PolicyCache) (reqs : List Request) :
    fetch c fuel token domain { policyCache := pc, world := w, requests := reqs } =
      .returned (policiesOf (pages ++ [final])) none
        { policyCache :=
            { policies := some (policiesOf (pages ++ [final])), timestamp := (c.now w2).1 },
          world := (c.now w2).2,
          requests := reqs ++ requestsFrom c token domain (pages.length + 1) 0 } := by
  obtain ⟨m, rfl⟩ : ∃ m, fuel = pages.length + (m + 1) := ⟨fuel - pages.length - 1, by omega⟩
  have := forLoop_served c token domain pages 0 _ w w1 h (m + 1) [] pc reqs
  simp only [List.nil_append] at this
  unfold fetch Locals.start
  rw [this, forLoop, loopBody_eq, hlast]
  simp only [finish, hstop, if_false, requestsFrom_succ, List.append_assoc, policiesOf_append]
  simp [policiesOf]

theorem GetEscalationPolicies_uncached {W Resp : Type} (c : Collaborators W Resp)
    (fuel : Nat) (token domain : String) (s : State W) (h : Uncached c s) :
    GetEscalationPolicies c fuel token domain s =
      fetch c fuel token domain
        { policyCache := s.policyCache, world := entryWorld c s, requests := s.requests } := by
  unfold GetEscalationPolicies entryWorld
  cases hp : s.policyCache.policies with
  | none => rfl
  | some cached =>
    have := h cached hp
    simp only [Time.Before, Time.Add, this, decide_False]
    rfl

theorem GetEscalationPolicies_hit {W Resp : Type} (c : Collaborators W Resp)
    (fuel : Nat) (token domain : String) (s : State W)
    (cached : List EscalationPolicy) (hp : s.policyCache.policies = some cached)
    (hfresh : (c.now s.world).1 < s.policyCache.timestamp + Hour) :
    GetEscalationPolicies c fuel token domain s =
      .returned cached none
        { policyCache := s.policyCache, world := (c.now s.world).2, requests := s.requests } := by
  unfold GetEscalationPolicies
  rw [hp]
  simp only [Time.Before, Time.Add, hfresh, decide_True, if_true]

theorem loopBody_state {W Resp : Type} (c : Collaborators W Resp) (token domain : String)
    (l : Locals) (s : State W) :
    (loopBody c token domain l s).state.requests =
        s.requests ++ [requestAt c token domain l.offset] ∧
      (loopBody c token domain l s).state.policyCache = s.policyCache := by
  unfold loopBody
  simp only []
  split
  · exact ⟨rfl, rfl⟩
  · split
    · exact ⟨rfl, rfl⟩
    · split <;> exact ⟨rfl, rfl⟩

theorem forLoop_state {W Resp : Type} (c : Collaborators W Resp) (token domain : String)
    (n : Nat) :
    ∀ (l : Locals) (s : State W),
      (∃ rest, (forLoop c token domain (n + 1) l s).state.requests =
          s.requests ++ requestAt c token domain l.offset :: rest) ∧
        (forLoop c token domain n l s).state.policyCache = s.policyCache := by
  induction n with
  | zero =>
    intro l s
    have h := loopBody_state c token domain l s
    refine ⟨⟨[], ?_⟩, rfl⟩
    rw [forLoop]
    cases hb : loopBody c token domain l s <;> rw [hb] at h <;> simpa [forLoop, Step.state] using h.1
  | succ m ih =>
    intro l s
    have h := loopBody_state c token domain l s
    constructor
    · rw [forLoop]
      cases hb : loopBody c token domain l s with
      | next l1 s1 =>
        rw [hb] at h
        obtain ⟨rest, hrest⟩ := (ih l1 s1).1
        refine ⟨requestAt c token domain l1.offset :: rest, ?_⟩
        simp only [hrest]
        simp only [Step.state] at h
        rw [h.1]
        simp
      | brk l1 s1 => rw [hb] at h; exact ⟨[], by simpa [Step.state] using h.1⟩
      | ret p e s1 => rw [hb] at h; exact ⟨[], by simpa [Step.state] using h.1⟩
    · rw [forLoop]
      cases hb : loopBody c token domain l s with
      | next l1 s1 =>
        rw [hb] at h
        simp only []
        rw [(ih l1 s1).2]
        exact h.2
      | brk l1 s1 => rw [hb] at h; exact h.2
      | ret p e s1 => rw [hb] at h; exact h.2

theorem fetch_requests {W Resp : Type} (c : Collaborators W Resp) (fuel : Nat)
    (token domain : String) (s : State W) :
    (fetch c fuel token domain s).state.requests =
      (forLoop c token domain fuel Locals.start s).state.requests := by
  unfold fetch
  cases forLoop c token domain fuel Locals.start s <;> rfl

theorem fetch_first_request {W Resp : Type} (c : Collaborators W Resp) (fuel : Nat)
    (token domain : String) (s : State W) :
    ∃ rest, (fetch c (fuel + 1) token domain s).state.requests =
      s.requests ++ requestAt c token domain 0 :: rest := by
  rw [fetch_requests]
  exact (forLoop_state c token domain fuel Locals.start s).1

theorem fetch_nil_error {W Resp : Type} (c : Collaborators W Resp) (fuel : Nat)
    (token domain : String) (s s1 : State W) (p : List EscalationPolicy)
    (h : fetch c fuel token domain s = .returned p none s1) :
    s1.policyCache.policies = some p := by
  unfold fetch at h
  cases hf : forLoop c token domain fuel Locals.start s with
  | next l s2 => rw [hf] at h; cases h
  | ret q e s2 => rw [hf] at h; cases h
  | brk l s2 =>
    rw [hf] at h
    simp only [finish, Run.returned.injEq] at h
    obtain ⟨h1, -, h3⟩ := h
    rw [← h3, ← h1]

theorem afterCalls_served {W Resp : Type} (c : Collaborators W Resp) (fuel : Nat)
    (calls : List (String × String)) :
    ∀ s : State W, ServedFromCache c fuel calls s →
      (afterCalls c fuel calls s).policyCache = s.policyCache ∧
        (afterCalls c fuel calls s).requests = s.requests := by
  induction calls with
  | nil => intro s _; exact ⟨rfl, rfl⟩
  | cons call rest ih =>
    intro s h
    obtain ⟨⟨hp, hfresh⟩, hrest⟩ := h
    obtain ⟨cached, hc⟩ := Option.ne_none_iff_exists'.mp hp
    have hhit := GetEscalationPolicies_hit c fuel call.1 call.2 s cached hc hfresh
    have := ih _ hrest
    simp only [afterCalls]
    rw [this.1, this.2, hhit]
    exact ⟨rfl, rfl⟩

theorem IsPolicyCached_fst {W : Type} (s : State W) :
    (IsPolicyCached s).1 = s.policyCache.policies.isSome := by
  unfold IsPolicyCached
  cases s.policyCache.policies <;> rfl

theorem Served_append {W Resp : Type} (c : Collaborators W Resp) (token domain : String)
    (pages : List (EscalationPolicyResponse)) (ep : EscalationPolicyResponse) :
    ∀ (off : Int) (prev : EscalationPolicyResponse) (w w1 w2 : W),
      Served c token domain pages off prev w w1 →
      servePage c token domain (bump pages.length off) (lastResp pages prev) w1 = (.ok ep, w2) →
      ep.Offset < ep.Total →
      Served c token domain (pages ++ [ep]) off prev w w2 := by
  induction pages with
  | nil =>
    intro off prev w w1 w2 h hp hlt
    simp only [Served] at h
    subst h
    simp only [List.length_nil, bump, lastResp, List.getLast?_nil, Option.getD_none] at hp
    simp [Served, hp, hlt]
  | cons q rest ih =>
    intro off prev w w1 w2 h hp hlt
    obtain ⟨h1, h2, h3⟩ := h
    rw [List.length_cons, bump, lastResp_cons] at hp
    exact ⟨h1, h2, ih _ _ _ _ _ h3 hp hlt⟩

theorem exists_served {W Resp : Type} (c : Collaborators W Resp) (token domain : String)
    (n : Nat) :
    ∀ (off : Int) (prev : EscalationPolicyResponse) (w : W),
      (∀ j, j < n → ∀ (q : EscalationPolicyResponse) (v : W),
        ∃ ep, (servePage c token domain (bump j off) q v).1 = .ok ep ∧ ep.Offset < ep.Total) →
      ∃ pages w1, pages.length = n ∧ Served c token domain pages off prev w w1 := by
  induction n with
  | zero => intro off prev w _; exact ⟨[], w, rfl, rfl⟩
  | succ m ih =>
    intro off prev w h
    obtain ⟨ep, hep, hlt⟩ := h 0 (by omega) prev w
    obtain ⟨pages, w1, hlen, hs⟩ := ih (addInt off limit) ep
      (servePage c token domain off prev w).2 (fun j hj => h (j + 1) (by omega))
    exact ⟨ep :: pages, w1, by simp [hlen], hep, hlt, hs⟩

theorem running_of_more {W Resp : Type} (c : Collaborators W Resp) (token domain : String)
    (s : State W) (hmiss : Uncached c s) (n : Nat)
    (h : ∀ j, j < n → ∀ (q : EscalationPolicyResponse) (v : W),
      ∃ ep, (servePage c token domain (bump j 0) q v).1 = .ok ep ∧ ep.Offset < ep.Total) :
    ∃ l s1, GetEscalationPolicies c n token domain s = .running l s1 ∧ l.offset = bump n 0 ∧
      s1.policyCache = s.policyCache ∧
      s1.requests = s.requests ++ requestsFrom c token domain n 0 := by
  obtain ⟨pages, w1, hlen, hs⟩ := exists_served c token domain n 0
    EscalationPolicyResponse.zero (entryWorld c s) h
  have hf := fetch_running c token domain pages _ w1 hs s.policyCache s.requests
  rw [hlen] at hf
  rw [GetEscalationPolicies_uncached c n token domain s hmiss, hf]
  exact ⟨_, _, rfl, rfl, rfl, rfl⟩

theorem served_of_step {W Resp : Type} (c : Collaborators W Resp) (token domain : String)
    (w : W)
    (hstep : ∀ (pages : List EscalationPolicyResponse) (w1 : W),
      Served c token domain pages 0 EscalationPolicyResponse.zero w w1 →
      ∃ ep, (servePage c token domain (bump pages.length 0)
        (lastResp pages EscalationPolicyResponse.zero) w1).1 = .ok ep ∧ ep.Offset < ep.Total)
    (n : Nat) :
    ∃ pages w1, pages.length = n ∧
      Served c token domain pages 0 EscalationPolicyResponse.zero w w1 := by
  induction n with
  | zero => exact ⟨[], w, rfl, rfl⟩
  | succ m ih =>
    obtain ⟨pages, w1, hlen, hs⟩ := ih
    obtain ⟨ep, hep, hlt⟩ := hstep pages w1 hs
    exact ⟨pages ++ [ep], _, by simp [hlen],
      Served_append c token domain pages ep 0 _ w w1 _ hs (Prod.ext hep rfl) hlt⟩

theorem running_of_trace {W Resp : Type} (c : Collaborators W Resp) (token domain : String)
    (s : State W) (hmiss : Uncached c s) (n : Nat) (pages : List EscalationPolicyResponse)
    (w1 : W) (hlen : pages.length = n)
    (hs : Served c token domain pages 0 EscalationPolicyResponse.zero (entryWorld c s) w1) :
    GetEscalationPolicies c n token domain s =
      .running
        { policies := policiesOf pages,
          epresp := lastResp pages EscalationPolicyResponse.zero, offset := bump n 0 }
        { policyCache := s.policyCache, world := w1,
          requests := s.requests ++ requestsFrom c token domain n 0 } := by
  have hf := fetch_running c token domain pages _ w1 hs s.policyCache s.requests
  rw [hlen] at hf
  rw [GetEscalationPolicies_uncached c n token domain s hmiss, hf]

theorem fetch_first_exchange {W Resp : Type} (c : Collaborators W Resp) (token domain : String)
    (s : State W) (n : Nat) :
    fetch c (n + 1) token domain s =
      match servePage c token domain 0 EscalationPolicyResponse.zero s.world with
      | (.error err, w1) =>
        .returned [] (some err)
          { policyCache := s.policyCache, world := w1,
            requests := s.requests ++ [requestAt c token domain 0] }
      | (.ok ep, w1) =>
        finish c
          (if ep.Offset < ep.Total then
            forLoop c token domain n
              { policies := ep.EscalationPolicies, epresp := ep, offset := 100 }
              { policyCache := s.policyCache, world := w1,
                requests := s.requests ++ [requestAt c token domain 0] }
          else
            .brk { policies := ep.EscalationPolicies, epresp := ep, offset := 0 }
              { policyCache := s.policyCache, world := w1,
                requests := s.requests ++ [requestAt c token domain 0] }) := by
  have e1 : addInt 0 limit = 100 := by decide
  unfold fetch
  rw [forLoop, loopBody_eq]
  simp only [Locals.start, List.nil_append, e1]
  rcases servePage c token domain 0 EscalationPolicyResponse.zero s.world with ⟨r, w1⟩
  cases r with
  | error err => rfl
  | ok ep =>
    simp only []
    by_cases hlt : ep.Offset < ep.Total
    · simp only [hlt, if_true]
    · simp only [hlt, if_false]

theorem issued_after_served {W Resp : Type} (c : Collaborators W Resp)
    (token domain : String) (s : State W) (hmiss : Uncached c s)
    (pages : List (EscalationPolicyResponse)) (w1 : W)
    (hs : Served c token domain pages 0 EscalationPolicyResponse.zero (entryWorld c s) w1)
    (fuel : Nat) (hfuel : pages.length < fuel) :
    ∃ rest, issued (GetEscalationPolicies c fuel token domain s) s =
      requestsFrom c token domain (pages.length + 1) 0 ++ rest := by
  obtain ⟨m, rfl⟩ : ∃ m, fuel = pages.length + (m + 1) := ⟨fuel - pages.length - 1, by omega⟩
  have hl := forLoop_served c token domain pages 0 _ _ w1 hs (m + 1) [] s.policyCache s.requests
  obtain ⟨rest, hrest⟩ := (forLoop_state c token domain m
    { policies := [] ++ policiesOf pages,
      epresp := lastResp pages EscalationPolicyResponse.zero,
      offset := bump pages.length 0 }
    { policyCache := s.policyCache, world := w1,
      requests := s.requests ++ requestsFrom c token domain pages.length 0 }).1
  refine ⟨rest, ?_⟩
  rw [GetEscalationPolicies_uncached c _ token domain s hmiss]
  unfold issued
  rw [fetch_requests]
  unfold Locals.start
  rw [hl, hrest, requestsFrom_succ]
  simp

theorem issued_of_returned {W : Type} (p : List EscalationPolicy) (e : Option GoError)
    (pc : PolicyCache) (w : W) (s : State W) (reqs : List Request) :
    issued (.returned p e { policyCache := pc, world := w, requests := s.requests ++ reqs }) s =
      reqs := by
  simp [issued, Run.state]

theorem requestsFrom_eq_map {W Resp : Type} (c : Collaborators W Resp)
    (token domain : String) (k : Nat) (off : Int) (f : Nat → Int)
    (hf : ∀ j, j < k → bump j off = f j) :
    requestsFrom c token domain k off =
      (List.range k).map (fun j => requestAt c token domain (f j)) := by
  apply List.ext_getElem?
  intro i
  by_cases hi : i < k
  · rw [requestsFrom_get c token domain k i off hi, List.getElem?_map,
      List.getElem?_range hi, hf i hi]
    rfl
  · rw [List.getElem?_eq_none (by rw [requestsFrom_length]; omega),
      List.getElem?_eq_none (by rw [List.length_map, List.length_range]; omega)]

theorem moreTable_more (j : Nat) (q : EscalationPolicyResponse) (v : Time) :
    ∃ ep, (servePage (mock moreTable) "token" "domain" (bump j 0) q v).1 = .ok ep ∧
      ep.Offset < ep.Total := by
  rw [servePage_mock]
  exact ⟨_, rfl, by decide⟩

theorem initial_uncached {W Resp : Type} (c : Collaborators W Resp) (w : W) :
    Uncached c (State.initial w) := by
  intro cached h
  cases h

/-! ## The claims -/

/-- C1 (cache hit). For every state whose cached policy sequence `cached` is
not nil, whatever its timestamp `T`, and every reading of the clock strictly
before `T` plus one hour, `GetEscalationPolicies` returns exactly `cached` with
a nil error, for every token, domain and amount of fuel; it issues no request
and leaves the cache as it was. -/
theorem cache_hit_returns_cached {W Resp : Type} (c : Collaborators W Resp)
    (fuel : Nat) (token domain : String) (s : State W)
    (cached : List EscalationPolicy) (hp : s.policyCache.policies = some cached)
    (hfresh : (c.now s.world).1 < s.policyCache.timestamp + Hour) :
    GetEscalationPolicies c fuel token domain s =
        .returned cached none
          { policyCache := s.policyCache, world := (c.now s.world).2, requests := s.requests } ∧
      issued (GetEscalationPolicies c fuel token domain s) s = [] := by
  have h := GetEscalationPolicies_hit c fuel token domain s cached hp hfresh
  refine ⟨h, ?_⟩
  rw [h]
  simp [issued, Run.state]

/-- Witness of C1: a cache stamped at instant 1000 and read 59 minutes later. -/
theorem cache_hit_returns_cached_witness :
    GetEscalationPolicies (mock moreTable) 0 "token" "domain" freshState =
        .returned [policy "A"] none freshState ∧
      issued (GetEscalationPolicies (mock moreTable) 0 "token" "domain" freshState)
        freshState = [] :=
  cache_hit_returns_cached (mock moreTable) 0 "token" "domain" freshState [policy "A"] rfl
    (by decide)

/-- C8 (`IsPolicyCached`). `IsPolicyCached` answers true exactly when the
cached policy sequence is not nil, whatever the timestamp, and leaves the state
as it was; it answers false in the state of a process that has just started;
and it answers true in the state left by every call of `GetEscalationPolicies`
that returned a nil error, where the cached sequence is the returned one, be it
empty. -/
theorem IsPolicyCached_semantics {W Resp : Type} (c : Collaborators W Resp)
    (fuel : Nat) (token domain : String) (s s1 : State W) (w : W)
    (p : List EscalationPolicy) :
    ((IsPolicyCached s).1 = true ↔ s.policyCache.policies ≠ none) ∧
      (IsPolicyCached s).2 = s ∧
      (IsPolicyCached (State.initial w)).1 = false ∧
      (GetEscalationPolicies c fuel token domain s = .returned p none s1 →
        (IsPolicyCached s1).1 = true ∧ s1.policyCache.policies = some p) := by
  refine ⟨?_, ?_, rfl, ?_⟩
  · rw [IsPolicyCached_fst]
    cases s.policyCache.policies <;> simp
  · unfold IsPolicyCached
    cases s.policyCache.policies <;> rfl
  · intro h
    have key : s1.policyCache.policies = some p := by
      unfold GetEscalationPolicies at h
      cases hp : s.policyCache.policies with
      | none =>
        rw [hp] at h
        exact fetch_nil_error c fuel token domain _ s1 p h
      | some cached =>
        rw [hp] at h
        simp only [] at h
        split at h
        · simp only [Run.returned.injEq] at h
          rw [← h.2.2, ← h.1]
          exact hp
        · exact fetch_nil_error c fuel token domain _ s1 p h
    exact ⟨by rw [IsPolicyCached_fst, key]; rfl, key⟩

/-- Witness of C8: a fetch from a server that holds no policy at all. -/
theorem IsPolicyCached_semantics_witness :
    GetEscalationPolicies (mock (echoTable 0 [])) 1 "token" "domain" (State.initial 0) =
        .returned [] none emptyFetched ∧
      (IsPolicyCached emptyFetched).1 = true :=
  ⟨rfl,
   ((IsPolicyCached_semantics (mock (echoTable 0 [])) 1 "token" "domain" (State.initial 0)
      emptyFetched 0 []).2.2.2 rfl).1⟩

/-- C4 (pagination rule, as amended). In an uncached call in which the pages
0 to k-1 (`pages`) were fetched and decoded, each asking for a further page,
the k-th request is built for the path `/api/v1/escalation_policies/on_call`
with limit 100 and with offset 100*k reduced to the range of the 64-bit `int`,
which is 100*k itself for every k up to 92233720368547758; and once page k is
decoded as `ep`, a (k+1)-th request is issued if and only if the decoded
offset of `ep` is strictly below its decoded total, the local offset playing
no part. -/
theorem pagination_rule {W Resp : Type} (c : Collaborators W Resp)
    (token domain : String) (s : State W)
    (pages : List (EscalationPolicyResponse)) (w1 : W)
    (hmiss : Uncached c s)
    (hs : Served c token domain pages 0 EscalationPolicyResponse.zero (entryWorld c s) w1)
    (fuel : Nat) (hfuel : pages.length < fuel) :
    (issued (GetEscalationPolicies c fuel token domain s) s)[pages.length]? =
        some { path := "/api/v1/escalation_policies/on_call", domain := domain,
               offset := wrapInt (100 * (pages.length : Int)), limit := 100,
               url := c.pagedUrl "/api/v1/escalation_policies/on_call" domain
                 (wrapInt (100 * (pages.length : Int))) 100,
               token := token, extra := "" } ∧
      (pages.length ≤ 92233720368547758 →
        wrapInt (100 * (pages.length : Int)) = 100 * (pages.length : Int)) ∧
      (∀ (ep : EscalationPolicyResponse) (w2 : W),
        servePage c token domain (bump pages.length 0)
          (lastResp pages EscalationPolicyResponse.zero) w1 = (.ok ep, w2) →
        pages.length + 1 < fuel →
        (ep.Offset < ep.Total ↔
          pages.length + 1 < (issued (GetEscalationPolicies c fuel token domain s) s).length)) := by
  refine ⟨?_, ?_, ?_⟩
  · obtain ⟨rest, hrest⟩ := issued_after_served c token domain s hmiss pages w1 hs fuel hfuel
    rw [hrest, List.getElem?_append_left (by rw [requestsFrom_length]; omega),
      requestsFrom_get c token domain _ _ 0 (by omega), bump_eq]
    rfl
  · intro hk
    rw [← bump_eq]
    exact bump_small _ hk
  · intro ep w2 hep hfuel2
    constructor
    · intro hlt
      have hs2 := Served_append c token domain pages ep 0 _ _ w1 w2 hs hep hlt
      obtain ⟨rest, hrest⟩ := issued_after_served c token domain s hmiss (pages ++ [ep]) w2 hs2
        fuel (by simp only [List.length_append, List.length_singleton]; omega)
      rw [hrest]
      simp only [List.length_append, List.length_singleton, requestsFrom_length]
      omega
    · intro hlen
      by_contra hstop
      have hr := fetch_success c token domain pages ep _ w1 w2 hs hep hstop fuel hfuel
        s.policyCache s.requests
      rw [GetEscalationPolicies_uncached c fuel token domain s hmiss, hr, issued_of_returned,
        requestsFrom_length] at hlen
      omega

/-- Witness of C4: against an offset-echoing mock with total 150, request 1 is
built for offset 100, and page 1 (offset 100, total 150) is followed by a
third request. -/
theorem pagination_rule_witness :
    (issued (GetEscalationPolicies (mock (echoTable 150 [])) 5 "token" "domain"
        (State.initial 0)) (State.initial 0))[1]? =
        some { path := "/api/v1/escalation_policies/on_call", domain := "domain",
               offset := 100, limit := 100, url := mockUrl 100,
               token := "token", extra := "" } ∧
      wrapInt 100 = 100 ∧
      ((100 : Int) < 150 ↔
        1 + 1 < (issued (GetEscalationPolicies (mock (echoTable 150 [])) 5 "token" "domain"
          (State.initial 0)) (State.initial 0)).length) :=
  have h := pagination_rule (mock (echoTable 150 [])) "token" "domain" (State.initial 0)
    [{ EscalationPolicies := [], Limit := 100, Offset := 0, Total := 150 }] 1
    (initial_uncached _ _)
    (by simp [Served, servePage_mock, echoTable, entryWorld, State.initial, PolicyCache.initial])
    5 (by decide)
  ⟨h.1, h.2.1 (by decide),
    h.2.2 { EscalationPolicies := [], Limit := 100, Offset := 100, Total := 150 } 2
      (by rw [servePage_mock]; rfl) (by decide)⟩

/-- Counterexample to C4 as stated: against a server that always asks for a
further page, request number 92233720368547759 is built for the offset
-9223372036854775716, not for 100 * 92233720368547759. -/
theorem pagination_rule_counterexample :
    ((issued (GetEscalationPolicies (mock moreTable) 92233720368547760 "token" "domain"
        (State.initial 0)) (State.initial 0))[92233720368547759]?).map
        Request.offset = some (-9223372036854775716) ∧
      (-9223372036854775716 : Int) ≠ 100 * 92233720368547759 := by
  obtain ⟨l, s1, hrun, -, -, hreq⟩ := running_of_more (mock moreTable) "token" "domain"
    (State.initial 0) (initial_uncached _ _) 92233720368547760
    (fun j _ q v => moreTable_more j q v)
  refine ⟨?_, by decide⟩
  rw [hrun]
  have hi : issued (.running l s1) (State.initial (0 : Time)) =
      requestsFrom (mock moreTable) "token" "domain" 92233720368547760 0 := by
    simp [issued, Run.state, hreq, State.initial]
  rw [hi, requestsFrom_get _ _ _ _ _ 0 (by decide), bump_eq]
  simp only [Option.map_some', requestAt]
  congr 1

/-- Counterexample to C9 as stated: against a server that always asks for a
further page, request number 100000000000000000 goes out for the offset
-8446744073709551616, not for 100 * 100000000000000000. -/
theorem unbounded_loop_counterexample :
    ((issued (GetEscalationPolicies (mock moreTable) 100000000000000001 "token" "domain"
        (State.initial 0)) (State.initial 0))[100000000000000000]?).map
        Request.offset = some (-8446744073709551616) ∧
      (-8446744073709551616 : Int) ≠ 100 * 100000000000000000 := by
  obtain ⟨l, s1, hrun, -, -, hreq⟩ := running_of_more (mock moreTable) "token" "domain"
    (State.initial 0) (initial_uncached _ _) 100000000000000001
    (fun j _ q v => moreTable_more j q v)
  refine ⟨?_, by decide⟩
  rw [hrun]
  have hi : issued (.running l s1) (State.initial (0 : Time)) =
      requestsFrom (mock moreTable) "token" "domain" 100000000000000001 0 := by
    simp [issued, Run.state, hreq, State.initial]
  rw [hi, requestsFrom_get _ _ _ _ _ 0 (by decide), bump_eq]
  simp only [Option.map_some', requestAt]
  congr 1

/-- C10 (request count against an offset-echoing server, as amended). In an
uncached call against a server that never errors, echoes in each response the
offset that was requested and reports the same total `t` in every response,
with `0 ≤ t ≤ 9223372036854775800`, the call returns a nil error as soon as it
has fuel for `K + 1` iterations, where `K = (t + 99) / 100` is `t / 100` rounded
up; it has then issued exactly the `K + 1` requests for the offsets 0, 100,
..., 100*K, and 100*K is the first multiple of 100 that is not below `t`. -/
theorem echo_request_count {W Resp : Type} (c : Collaborators W Resp)
    (token domain : String) (s : State W) (t : Int) (hmiss : Uncached c s)
    (hecho : ∀ (off : Int) (q : EscalationPolicyResponse) (v : W),
      ∃ ep, (servePage c token domain off q v).1 = .ok ep ∧ ep.Offset = off ∧ ep.Total = t)
    (h0 : 0 ≤ t) (hmax : t ≤ 9223372036854775800)
    (fuel : Nat) (hfuel : ((t + 99) / 100).toNat < fuel) :
    (GetEscalationPolicies c fuel token domain s).isReturned = true ∧
      (∃ p s1, GetEscalationPolicies c fuel token domain s = .returned p none s1) ∧
      issued (GetEscalationPolicies c fuel token domain s) s =
        (List.range (((t + 99) / 100).toNat + 1)).map
          (fun (j : Nat) => requestAt c token domain (100 * (j : Int))) ∧
      (issued (GetEscalationPolicies c fuel token domain s) s).length =
        ((t + 99) / 100).toNat + 1 ∧
      t ≤ 100 * (((t + 99) / 100).toNat : Int) ∧
      100 * (((t + 99) / 100).toNat : Int) < t + 100 := by
  have hK : ∀ j : Nat, j ≤ ((t + 99) / 100).toNat → bump j 0 = 100 * (j : Int) :=
    fun j hj => bump_small j (by omega)
  obtain ⟨pages, w1, hlen, hs⟩ := exists_served c token domain ((t + 99) / 100).toNat 0
    EscalationPolicyResponse.zero (entryWorld c s) (by
      intro j hj q v
      obtain ⟨ep, hep, ho, ht⟩ := hecho (bump j 0) q v
      refine ⟨ep, hep, ?_⟩
      rw [ho, ht, hK j (by omega)]
      omega)
  obtain ⟨final, hfin, ho, ht⟩ := hecho (bump pages.length 0)
    (lastResp pages EscalationPolicyResponse.zero) w1
  have hstop : ¬ final.Offset < final.Total := by
    rw [ho, ht, hlen, hK _ (le_refl _)]
    omega
  have hr := fetch_success c token domain pages final _ w1 _ hs (Prod.ext hfin rfl) hstop fuel
    (by omega) s.policyCache s.requests
  rw [GetEscalationPolicies_uncached c fuel token domain s hmiss, hr, issued_of_returned, hlen]
  refine ⟨rfl, ⟨_, _, rfl⟩, ?_, by rw [requestsFrom_length], by omega, by omega⟩
  exact requestsFrom_eq_map c token domain (((t + 99) / 100).toNat + 1) 0
    (fun j => 100 * (j : Int)) (fun j hj => hK j (by omega))

/-- Witness of C10: an offset-echoing mock with total 150 is asked for three
pages, at offsets 0, 100 and 200. -/
theorem echo_request_count_witness :
    (GetEscalationPolicies (mock (echoTable 150 [])) 3 "token" "domain"
        (State.initial 0)).isReturned = true ∧
      (∃ p s1, GetEscalationPolicies (mock (echoTable 150 [])) 3 "token" "domain"
        (State.initial 0) = .returned p none s1) ∧
      issued (GetEscalationPolicies (mock (echoTable 150 [])) 3 "token" "domain"
        (State.initial 0)) (State.initial 0) =
        [requestAt (mock (echoTable 150 [])) "token" "domain" 0,
         requestAt (mock (echoTable 150 [])) "token" "domain" 100,
         requestAt (mock (echoTable 150 [])) "token" "domain" 200] ∧
      (issued (GetEscalationPolicies (mock (echoTable 150 [])) 3 "token" "domain"
        (State.initial 0)) (State.initial 0)).length = 3 ∧
      (150 : Int) ≤ 200 ∧ (200 : Int) < 150 + 100 :=
  echo_request_count (mock (echoTable 150 [])) "token" "domain" (State.initial 0) 150
    (initial_uncached _ _)
    (fun off q v => ⟨_, by rw [servePage_mock]; rfl, rfl, rfl⟩)
    (by decide) (by decide) 3 (by decide)

/-- Counterexample to C10 as stated: against an offset-echoing server whose
total is 9223372036854775807, the call has not returned after the
92233720368547760 requests that `t / 100` rounded up plus one comes to. -/
theorem echo_request_count_counterexample :
    ((9223372036854775807 + 99) / 100 + 1 : Int) = 92233720368547760 ∧
      (GetEscalationPolicies (mock (echoTable 9223372036854775807 [])) 92233720368547760
        "token" "domain" (State.initial 0)).isReturned = false := by
  refine ⟨by decide, ?_⟩
  obtain ⟨l, s1, hrun, -⟩ := running_of_more (mock (echoTable 9223372036854775807 []))
    "token" "domain" (State.initial 0) (initial_uncached _ _) 92233720368547760
    (by
      intro j _ q v
      rw [servePage_mock]
      refine ⟨_, rfl, ?_⟩
      show bump j 0 < 9223372036854775807
      rw [bump_eq]
      unfold wrapInt
      norm_num
      omega)
  rw [hrun]
  rfl

/-- C5 (pagination merge, as amended). With a nil cache and a remote API that
answers the request for offset 0 with policies [A, B], offset 0, total 150 and
the request for offset 100 with policies [C], offset 100, total 150, a call
with fuel for three iterations issues a third request, for offset 200, after
those for offsets 0 and 100; and when that request is answered with no policy,
offset 200 and total 150, the call has issued exactly these three requests and
returns, with a nil error, the three structs A, B, C in this order, as `append`
copied them when their pages were decoded (strings, loop count and slice
headers), and the cache holds the same three structs. Which rules, services
and on-call entries the slice headers show by then is not stated. -/
theorem pagination_merge {W Resp : Type} (c : Collaborators W Resp)
    (token domain : String) (s : State W) (A B C : EscalationPolicy) (l0 l1 : Int)
    (w1 w2 : W)
    (hempty : s.policyCache.policies = none)
    (h0 : servePage c token domain 0 EscalationPolicyResponse.zero s.world =
      (.ok { EscalationPolicies := [A, B], Limit := l0, Offset := 0, Total := 150 }, w1))
    (h1 : servePage c token domain 100
      { EscalationPolicies := [A, B], Limit := l0, Offset := 0, Total := 150 } w1 =
      (.ok { EscalationPolicies := [C], Limit := l1, Offset := 100, Total := 150 }, w2))
    (fuel : Nat) (hfuel : 3 ≤ fuel) :
    (∃ rest, issued (GetEscalationPolicies c fuel token domain s) s =
        requestAt c token domain 0 :: requestAt c token domain 100 ::
          requestAt c token domain 200 :: rest) ∧
      (∀ (l2 : Int) (w3 : W),
        servePage c token domain 200
          { EscalationPolicies := [C], Limit := l1, Offset := 100, Total := 150 } w2 =
          (.ok { EscalationPolicies := [], Limit := l2, Offset := 200, Total := 150 }, w3) →
        GetEscalationPolicies c fuel token domain s =
          .returned [A, B, C] none
            { policyCache := { policies := some [A, B, C], timestamp := (c.now w3).1 },
              world := (c.now w3).2,
              requests := s.requests ++ [requestAt c token domain 0,
                requestAt c token domain 100, requestAt c token domain 200] }) := by
  have hmiss : Uncached c s := by
    intro cached hc
    rw [hempty] at hc
    cases hc
  have hw : entryWorld c s = s.world := by
    unfold entryWorld
    rw [hempty]
  have e1 : addInt 0 limit = 100 := by decide
  have e2 : addInt 100 limit = 200 := by decide
  have hs : Served c token domain
      [{ EscalationPolicies := [A, B], Limit := l0, Offset := 0, Total := 150 },
       { EscalationPolicies := [C], Limit := l1, Offset := 100, Total := 150 }] 0
      EscalationPolicyResponse.zero (entryWorld c s) w2 := by
    rw [hw]
    simp [Served, h0, e1, h1]
  constructor
  · obtain ⟨rest, hrest⟩ := issued_after_served c token domain s hmiss _ w2 hs fuel
      (by simp only [List.length_cons, List.length_nil]; omega)
    refine ⟨rest, ?_⟩
    rw [hrest]
    simp [requestsFrom, e1, e2]
  · intro l2 w3 h2
    rw [GetEscalationPolicies_uncached c fuel token domain s hmiss]
    have hb : bump 2 0 = 200 := by simp [bump, e1, e2]
    have hr := fetch_success c token domain _
      { EscalationPolicies := [], Limit := l2, Offset := 200, Total := 150 } _ w2 w3 hs
      (by simpa [hb, lastResp] using h2) (by show ¬ (200 : Int) < 150; decide) fuel
      (by simp only [List.length_cons, List.length_nil]; omega) s.policyCache s.requests
    rw [hr]
    simp [policiesOf, requestsFrom, e1, e2]

/-- Witness of C5: the in-place mock of the API of property P3, which answers
the request for offset 200 with an empty page. The structs of A and of C come
back with the same slice headers. -/
theorem pagination_merge_witness :
    (∃ rest, issued (GetEscalationPolicies (inPlaceMock mergeJSON) 3 "token" "domain"
        freshProcess) freshProcess =
        requestAt (inPlaceMock mergeJSON) "token" "domain" 0 ::
          requestAt (inPlaceMock mergeJSON) "token" "domain" 100 ::
          requestAt (inPlaceMock mergeJSON) "token" "domain" 200 :: rest) ∧
      (GetEscalationPolicies (inPlaceMock mergeJSON) 3 "token" "domain"
        freshProcess).policies =
        [{ Id := "A", Name := "", EscalationRules := { addr := 1, len := 1, cap := 1 },
           Services := { addr := 2, len := 1, cap := 1 }, OnCall := Slice.nil, NumLoops := 0 },
         { Id := "B", Name := "", EscalationRules := { addr := 0, len := 0, cap := 0 },
           Services := { addr := 0, len := 0, cap := 0 }, OnCall := Slice.nil, NumLoops := 0 },
         { Id := "C", Name := "", EscalationRules := { addr := 1, len := 1, cap := 1 },
           Services := { addr := 2, len := 1, cap := 1 }, OnCall := Slice.nil,
           NumLoops := 0 }] ∧
      (GetEscalationPolicies (inPlaceMock mergeJSON) 3 "token" "domain"
        freshProcess).err = none :=
  have h := pagination_merge (inPlaceMock mergeJSON) "token" "domain" freshProcess
    { Id := "A", Name := "", EscalationRules := { addr := 1, len := 1, cap := 1 },
      Services := { addr := 2, len := 1, cap := 1 }, OnCall := Slice.nil, NumLoops := 0 }
    { Id := "B", Name := "", EscalationRules := { addr := 0, len := 0, cap := 0 },
      Services := { addr := 0, len := 0, cap := 0 }, OnCall := Slice.nil, NumLoops := 0 }
    { Id := "C", Name := "", EscalationRules := { addr := 1, len := 1, cap := 1 },
      Services := { addr := 2, len := 1, cap := 1 }, OnCall := Slice.nil, NumLoops := 0 }
    100 100
    (servePage (inPlaceMock mergeJSON) "token" "domain" 0 EscalationPolicyResponse.zero
      freshProcess.world).2
    (servePage (inPlaceMock mergeJSON) "token" "domain" 100 firstDecoded
      (servePage (inPlaceMock mergeJSON) "token" "domain" 0 EscalationPolicyResponse.zero
        freshProcess.world).2).2
    rfl rfl rfl 3 (by decide)
  ⟨h.1, congrArg Run.policies (h.2 100 _ rfl), congrArg Run.err (h.2 100 _ rfl)⟩

/-- Counterexample to C5 as stated: the mock API of property P3 is asked for
three pages, not two. -/
theorem pagination_merge_counterexample :
    servePage (mock mergeTable) "token" "domain" 0 EscalationPolicyResponse.zero 0 =
        (.ok { EscalationPolicies := [policy "A", policy "B"], Limit := 100, Offset := 0,
               Total := 150 }, 1) ∧
      servePage (mock mergeTable) "token" "domain" 100 pageAB 1 =
        (.ok { EscalationPolicies := [policy "C"], Limit := 100, Offset := 100,
               Total := 150 }, 2) ∧
      issued (GetEscalationPolicies (mock mergeTable) 10 "token" "domain"
        (State.initial 0)) (State.initial 0) =
        [requestAt (mock mergeTable) "token" "domain" 0,
         requestAt (mock mergeTable) "token" "domain" 100,
         requestAt (mock mergeTable) "token" "domain" 200] ∧
      (issued (GetEscalationPolicies (mock mergeTable) 10 "token" "domain"
        (State.initial 0)) (State.initial 0)).length = 3 := by
  refine ⟨by rw [servePage_mock]; rfl, by rw [servePage_mock]; rfl, ?_⟩
  have hs : Served (mock mergeTable) "token" "domain"
      [pageAB, { EscalationPolicies := [policy "C"], Limit := 100, Offset := 100, Total := 150 }]
      0 EscalationPolicyResponse.zero
      (entryWorld (mock mergeTable) (State.initial 0)) 2 := by
    simp [Served, servePage_mock, mergeTable, pageAB, entryWorld, State.initial,
      PolicyCache.initial, addInt, wrapInt, limit]
  have hr := fetch_success (mock mergeTable) "token" "domain" _
    { EscalationPolicies := [], Limit := 100, Offset := 200, Total := 150 } _ 2 3 hs
    (by rw [servePage_mock]; rfl) (by decide) 10 (by decide)
    PolicyCache.initial []
  have hg := GetEscalationPolicies_uncached (mock mergeTable) 10 "token" "domain"
    (State.initial 0) (initial_uncached _ _)
  have hi : issued (GetEscalationPolicies (mock mergeTable) 10 "token" "domain"
      (State.initial 0)) (State.initial 0) =
      [requestAt (mock mergeTable) "token" "domain" 0,
       requestAt (mock mergeTable) "token" "domain" 100,
       requestAt (mock mergeTable) "token" "domain" 200] := by
    rw [hg.trans hr]
    have e1 : addInt 0 limit = 100 := by decide
    have e2 : addInt 100 limit = 200 := by decide
    simp [issued, Run.state, State.initial, requestsFrom, e1, e2]
  exact ⟨hi, by rw [hi]; rfl⟩

/-- C6 (single page, as amended). In an uncached call whose first response
decodes with its offset not below its total, as with offset 0 and total 0, the
call issues exactly one request; when the first response decodes with its
offset below its total, as with offset 0, total 2 and 2 policies returned, a
second request, for offset 100, follows the first. -/
theorem single_page {W Resp : Type} (c : Collaborators W Resp)
    (token domain : String) (s : State W) (first : EscalationPolicyResponse) (w1 : W)
    (hmiss : Uncached c s)
    (h0 : servePage c token domain 0 EscalationPolicyResponse.zero (entryWorld c s) =
      (.ok first, w1))
    (fuel : Nat) (hfuel : 1 ≤ fuel) :
    (¬ first.Offset < first.Total →
        issued (GetEscalationPolicies c fuel token domain s) s = [requestAt c token domain 0]) ∧
      (first.Offset < first.Total → 2 ≤ fuel →
        ∃ rest, issued (GetEscalationPolicies c fuel token domain s) s =
          requestAt c token domain 0 :: requestAt c token domain 100 :: rest) := by
  constructor
  · intro hstop
    have hr := fetch_success c token domain [] first (entryWorld c s) (entryWorld c s) w1 rfl
      h0 hstop fuel (by simpa using hfuel) s.policyCache s.requests
    rw [GetEscalationPolicies_uncached c fuel token domain s hmiss, hr, issued_of_returned]
    rfl
  · intro hlt hfuel2
    have hs : Served c token domain [first] 0 EscalationPolicyResponse.zero
        (entryWorld c s) w1 := by
      simp [Served, h0, hlt]
    obtain ⟨rest, hrest⟩ := issued_after_served c token domain s hmiss [first] w1 hs fuel
      (by simpa using hfuel2)
    refine ⟨rest, ?_⟩
    rw [hrest]
    have e1 : addInt 0 limit = 100 := by decide
    simp [requestsFrom, e1]

/-- Witness of C6: an offset-echoing mock with total 0 is asked for one page,
one with total 2 for two. -/
theorem single_page_witness :
    issued (GetEscalationPolicies (mock (echoTable 0 [])) 2 "token" "domain"
        (State.initial 0)) (State.initial 0) =
        [requestAt (mock (echoTable 0 [])) "token" "domain" 0] ∧
      ∃ rest, issued (GetEscalationPolicies (mock (echoTable 2 [policy "A", policy "B"])) 2
          "token" "domain" (State.initial 0)) (State.initial 0) =
        requestAt (mock (echoTable 2 [policy "A", policy "B"])) "token" "domain" 0 ::
          requestAt (mock (echoTable 2 [policy "A", policy "B"])) "token" "domain" 100 :: rest :=
  ⟨(single_page (mock (echoTable 0 [])) "token" "domain" (State.initial 0)
      { EscalationPolicies := [], Limit := 100, Offset := 0, Total := 0 } 1
      (initial_uncached _ _) (by rw [servePage_mock]; rfl) 2 (by decide)).1 (by decide),
   (single_page (mock (echoTable 2 [policy "A", policy "B"])) "token" "domain"
      (State.initial 0)
      { EscalationPolicies := [policy "A", policy "B"], Limit := 100, Offset := 0, Total := 2 } 1
      (initial_uncached _ _) (by rw [servePage_mock]; rfl) 2 (by decide)).2 (by decide)
      (by decide)⟩

/-- Counterexample to C6 as stated: the first response of the mock decodes
with offset 0, total 2 and 2 policies, and two requests are issued. -/
theorem single_page_counterexample :
    servePage (mock (echoTable 2 [policy "A", policy "B"])) "token" "domain" 0
        EscalationPolicyResponse.zero 0 =
        (.ok { EscalationPolicies := [policy "A", policy "B"], Limit := 100, Offset := 0,
               Total := 2 }, 1) ∧
      (issued (GetEscalationPolicies (mock (echoTable 2 [policy "A", policy "B"])) 10
        "token" "domain" (State.initial 0)) (State.initial 0)).length = 2 := by
  refine ⟨by rw [servePage_mock]; rfl, ?_⟩
  have hs : Served (mock (echoTable 2 [policy "A", policy "B"])) "token" "domain"
      [{ EscalationPolicies := [policy "A", policy "B"], Limit := 100, Offset := 0, Total := 2 }]
      0 EscalationPolicyResponse.zero
      (entryWorld (mock (echoTable 2 [policy "A", policy "B"])) (State.initial 0)) 1 := by
    simp [Served, servePage_mock, echoTable, entryWorld, State.initial, PolicyCache.initial]
  have hr := fetch_success (mock (echoTable 2 [policy "A", policy "B"])) "token" "domain" _
    { EscalationPolicies := [], Limit := 100, Offset := 100, Total := 2 } _ 1 2 hs
    (by rw [servePage_mock]; rfl) (by decide) 10 (by decide)
    PolicyCache.initial []
  rw [(GetEscalationPolicies_uncached _ 10 "token" "domain" (State.initial 0)
    (initial_uncached _ _)).trans hr]
  simp [issued, Run.state, State.initial, requestsFrom_length]

/-- C2 at a failing input. The in-place mock serves policy A (rule rA1,
service sA1) and policy B on page 0, policy C (rule rC1, service sC1) on page
1, both pages asking for more, and refuses the GET of page 2. Page 0 was
decoded as A with rA1 and sA1, page 1 as C with rC1 and sC1. The call returns
the refusal itself and three policy structs A, B, C, leaves the cache nil and
has issued three requests; but the first returned struct shows rule rC1 and
service sC1: decoding page 1 wrote over the arrays that the copy of A made by
`append` still points to. -/
theorem error_return_overwritten :
    shownIds (servePage (inPlaceMock failingJSON) "token" "domain" 0
        EscalationPolicyResponse.zero freshProcess.world) =
        [(["rA1"], ["sA1"]), ([], [])] ∧
      shownIds (servePage (inPlaceMock failingJSON) "token" "domain" 100 firstDecoded
        (servePage (inPlaceMock failingJSON) "token" "domain" 0
          EscalationPolicyResponse.zero freshProcess.world).2) = [(["rC1"], ["sC1"])] ∧
      (GetEscalationPolicies (inPlaceMock failingJSON) 5 "token" "domain"
        freshProcess).err = some "connection refused" ∧
      (GetEscalationPolicies (inPlaceMock failingJSON) 5 "token" "domain"
        freshProcess).policies.map (fun p => p.Id) = ["A", "B", "C"] ∧
      (GetEscalationPolicies (inPlaceMock failingJSON) 5 "token" "domain"
        freshProcess).policies.map
        (fun p => ((GetEscalationPolicies (inPlaceMock failingJSON) 5 "token" "domain"
            freshProcess).state.world.memory.ruleIds p,
          (GetEscalationPolicies (inPlaceMock failingJSON) 5 "token" "domain"
            freshProcess).state.world.memory.serviceIds p)) =
        [(["rC1"], ["sC1"]), ([], []), (["rC1"], ["sC1"])] ∧
      (GetEscalationPolicies (inPlaceMock failingJSON) 5 "token" "domain"
        freshProcess).state.policyCache.policies = none ∧
      (issued (GetEscalationPolicies (inPlaceMock failingJSON) 5 "token" "domain"
        freshProcess) freshProcess).length = 3 :=
  ⟨rfl, rfl, rfl, rfl, rfl, rfl, rfl⟩

/-- C3 at a failing input. The in-place mock serves policy A (rule rA1,
service sA1) and policy B on page 0, policy C (rule rC1, service sC1) on page
1 and an empty page 2 that ends the loop. Page 0 was decoded as A with rA1
and sA1, page 1 as C with rC1 and sC1. The call returns a nil error and three
policy structs A, B, C and caches the same three; but the first of them shows
rule rC1 and service sC1, in the result and in the cache: decoding page 1
wrote over the arrays that the copy of A made by `append` still points to. -/
theorem success_return_overwritten :
    shownIds (servePage (inPlaceMock mergeJSON) "token" "domain" 0
        EscalationPolicyResponse.zero freshProcess.world) =
        [(["rA1"], ["sA1"]), ([], [])] ∧
      shownIds (servePage (inPlaceMock mergeJSON) "token" "domain" 100 firstDecoded
        (servePage (inPlaceMock mergeJSON) "token" "domain" 0
          EscalationPolicyResponse.zero freshProcess.world).2) = [(["rC1"], ["sC1"])] ∧
      (GetEscalationPolicies (inPlaceMock mergeJSON) 3 "token" "domain"
        freshProcess).isReturned = true ∧
      (GetEscalationPolicies (inPlaceMock mergeJSON) 3 "token" "domain"
        freshProcess).err = none ∧
      (GetEscalationPolicies (inPlaceMock mergeJSON) 3 "token" "domain"
        freshProcess).policies.map (fun p => p.Id) = ["A", "B", "C"] ∧
      (GetEscalationPolicies (inPlaceMock mergeJSON) 3 "token" "domain"
        freshProcess).policies.map
        (fun p => ((GetEscalationPolicies (inPlaceMock mergeJSON) 3 "token" "domain"
            freshProcess).state.world.memory.ruleIds p,
          (GetEscalationPolicies (inPlaceMock mergeJSON) 3 "token" "domain"
            freshProcess).state.world.memory.serviceIds p)) =
        [(["rC1"], ["sC1"]), ([], []), (["rC1"], ["sC1"])] ∧
      (GetEscalationPolicies (inPlaceMock mergeJSON) 3 "token" "domain"
        freshProcess).state.policyCache.policies =
        some (GetEscalationPolicies (inPlaceMock mergeJSON) 3 "token" "domain"
          freshProcess).policies :=
  ⟨rfl, rfl, rfl, rfl, rfl, rfl, rfl⟩

/-- C7 (hard expiry, no sliding). After any number of calls served from the
cache, zero included, the cache, timestamp `T` included, is the one the state
had before them. A call made then, when the clock reads `T` plus one hour or
later, and given fuel for `n + 1` iterations, calls the HTTP getter for the
URL of offset 0 in the world the clock reading left: when that GET or the
decoding of its body fails the call returns that error and the world the
failure left, and otherwise the call goes on from the world the exchange left
with the page it decoded; either way the request for offset 0 is the first
the call has issued. -/
theorem hard_expiry {W Resp : Type} (c : Collaborators W Resp) (fuel : Nat)
    (calls : List (String × String)) (s : State W) (token domain : String)
    (hserved : ServedFromCache c fuel calls s) :
    (afterCalls c fuel calls s).policyCache = s.policyCache ∧
      (s.policyCache.timestamp + Hour ≤ (c.now (afterCalls c fuel calls s).world).1 →
        ∀ n : Nat,
          GetEscalationPolicies c (n + 1) token domain (afterCalls c fuel calls s) =
            (match servePage c token domain 0 EscalationPolicyResponse.zero
                (entryWorld c (afterCalls c fuel calls s)) with
              | (.error err, w1) =>
                .returned [] (some err)
                  { policyCache := s.policyCache, world := w1,
                    requests := (afterCalls c fuel calls s).requests ++
                      [requestAt c token domain 0] }
              | (.ok ep, w1) =>
                finish c
                  (if ep.Offset < ep.Total then
                    forLoop c token domain n
                      { policies := ep.EscalationPolicies, epresp := ep, offset := 100 }
                      { policyCache := s.policyCache, world := w1,
                        requests := (afterCalls c fuel calls s).requests ++
                          [requestAt c token domain 0] }
                  else
                    .brk { policies := ep.EscalationPolicies, epresp := ep, offset := 0 }
                      { policyCache := s.policyCache, world := w1,
                        requests := (afterCalls c fuel calls s).requests ++
                          [requestAt c token domain 0] })) ∧
            ∃ rest,
              issued (GetEscalationPolicies c (n + 1) token domain (afterCalls c fuel calls s))
                (afterCalls c fuel calls s) = requestAt c token domain 0 :: rest) := by
  have hcache := (afterCalls_served c fuel calls s hserved).1
  refine ⟨hcache, ?_⟩
  intro hlate n
  have hmiss : Uncached c (afterCalls c fuel calls s) := by
    intro cached _
    rw [hcache]
    exact not_lt.mpr hlate
  rw [GetEscalationPolicies_uncached c (n + 1) token domain _ hmiss]
  constructor
  · rw [fetch_first_exchange, hcache]
  · obtain ⟨rest, hrest⟩ := fetch_first_request c n token domain
      { policyCache := (afterCalls c fuel calls s).policyCache,
        world := entryWorld c (afterCalls c fuel calls s),
        requests := (afterCalls c fuel calls s).requests }
    exact ⟨rest, by simp [issued, hrest]⟩

/-- Witness of C7: a cache stamped at instant 1000 serves a call at that
instant; a call 61 minutes later goes to the GET for offset 0, which takes one
nanosecond, and is in its loop after one iteration. -/
theorem hard_expiry_witness :
    (afterCalls (slowMock moreTable) 1 [("token", "domain")] stampedState).policyCache =
        stampedState.policyCache ∧
      GetEscalationPolicies (slowMock moreTable) 1 "token" "domain"
          (afterCalls (slowMock moreTable) 1 [("token", "domain")] stampedState) =
        .running
          { policies := [],
            epresp := { EscalationPolicies := [], Limit := 100, Offset := 0, Total := 1 },
            offset := 100 }
          { policyCache := stampedState.policyCache, world := 1000 + 3660000000000 * 2 + 1,
            requests := [requestAt (slowMock moreTable) "token" "domain" 0] } ∧
      ∃ rest,
        issued (GetEscalationPolicies (slowMock moreTable) 1 "token" "domain"
            (afterCalls (slowMock moreTable) 1 [("token", "domain")] stampedState))
          (afterCalls (slowMock moreTable) 1 [("token", "domain")] stampedState) =
          requestAt (slowMock moreTable) "token" "domain" 0 :: rest :=
  have h := hard_expiry (slowMock moreTable) 1 [("token", "domain")] stampedState "token"
    "domain" ⟨⟨by simp [stampedState], by decide⟩, trivial⟩
  ⟨h.1, (h.2 (by decide) 0).1, (h.2 (by decide) 0).2⟩

/-- C9 (unbounded loop, as amended). In an uncached call in which every GET
the call makes succeeds and every response it decodes has its offset below its
total, for every natural number `n` the call has not returned after `n`
iterations and the cache is as before the call: it is in its loop, in the
world the first `n` exchanges left, with the policies of their pages; within
`n + 1` iterations it has issued exactly `n + 1` requests, more than `n`, the
`n`-th of them for the offset 100*n reduced to the range of the 64-bit `int`,
which is 100*n itself for every `n` up to 92233720368547758. -/
theorem unbounded_loop {W Resp : Type} (c : Collaborators W Resp)
    (token domain : String) (s : State W) (hmiss : Uncached c s)
    (hmore : ∀ (pages : List EscalationPolicyResponse) (w1 : W),
      Served c token domain pages 0 EscalationPolicyResponse.zero (entryWorld c s) w1 →
      ∃ ep, (servePage c token domain (bump pages.length 0)
        (lastResp pages EscalationPolicyResponse.zero) w1).1 = .ok ep ∧ ep.Offset < ep.Total)
    (n : Nat) :
    (GetEscalationPolicies c n token domain s).isReturned = false ∧
      (GetEscalationPolicies c n token domain s).state.policyCache = s.policyCache ∧
      (∃ pages w1, pages.length = n ∧
        Served c token domain pages 0 EscalationPolicyResponse.zero (entryWorld c s) w1 ∧
        GetEscalationPolicies c n token domain s =
          .running
            { policies := policiesOf pages,
              epresp := lastResp pages EscalationPolicyResponse.zero,
              offset := wrapInt (100 * (n : Int)) }
            { policyCache := s.policyCache, world := w1,
              requests := s.requests ++ requestsFrom c token domain n 0 }) ∧
      (issued (GetEscalationPolicies c (n + 1) token domain s) s).length = n + 1 ∧
      (issued (GetEscalationPolicies c (n + 1) token domain s) s)[n]? =
        some (requestAt c token domain (wrapInt (100 * (n : Int)))) ∧
      (n ≤ 92233720368547758 → wrapInt (100 * (n : Int)) = 100 * (n : Int)) := by
  obtain ⟨pages, w1, hlen, hs⟩ := served_of_step c token domain (entryWorld c s) hmore n
  obtain ⟨pages2, w2, hlen2, hs2⟩ :=
    served_of_step c token domain (entryWorld c s) hmore (n + 1)
  have hrun := running_of_trace c token domain s hmiss n pages w1 hlen hs
  have hrun2 := running_of_trace c token domain s hmiss (n + 1) pages2 w2 hlen2 hs2
  have hi : issued (GetEscalationPolicies c (n + 1) token domain s) s =
      requestsFrom c token domain (n + 1) 0 := by
    rw [hrun2]
    simp [issued, Run.state]
  refine ⟨by rw [hrun]; rfl, by rw [hrun]; rfl, ⟨pages, w1, hlen, hs, by rw [hrun, bump_eq]⟩,
    ?_, ?_, ?_⟩
  · rw [hi, requestsFrom_length]
  · rw [hi, requestsFrom_get c token domain _ _ 0 (by omega), bump_eq]
  · intro hn
    rw [← bump_eq]
    exact bump_small n hn

/-- Witness of C9: an offset-echoing mock whose total is 9223372036854775807:
every response the call decodes has its offset below that total. -/
theorem unbounded_loop_witness :
    (GetEscalationPolicies (mock (echoTable 9223372036854775807 [])) 2 "token" "domain"
        (State.initial 0)).isReturned = false ∧
      (GetEscalationPolicies (mock (echoTable 9223372036854775807 [])) 2 "token" "domain"
        (State.initial 0)).state.policyCache = PolicyCache.initial ∧
      (∃ pages w1, pages.length = 2 ∧
        Served (mock (echoTable 9223372036854775807 [])) "token" "domain" pages 0
          EscalationPolicyResponse.zero 0 w1 ∧
        GetEscalationPolicies (mock (echoTable 9223372036854775807 [])) 2 "token" "domain"
            (State.initial 0) =
          .running
            { policies := policiesOf pages,
              epresp := lastResp pages EscalationPolicyResponse.zero, offset := 200 }
            { policyCache := PolicyCache.initial, world := w1,
              requests := requestsFrom (mock (echoTable 9223372036854775807 [])) "token"
                "domain" 2 0 }) ∧
      (issued (GetEscalationPolicies (mock (echoTable 9223372036854775807 [])) 3 "token"
        "domain" (State.initial 0)) (State.initial 0)).length = 3 ∧
      (issued (GetEscalationPolicies (mock (echoTable 9223372036854775807 [])) 3 "token"
        "domain" (State.initial 0)) (State.initial 0))[2]? =
        some (requestAt (mock (echoTable 9223372036854775807 [])) "token" "domain" 200) ∧
      wrapInt 200 = 200 :=
  have h := unbounded_loop (mock (echoTable 9223372036854775807 [])) "token" "domain"
    (State.initial 0) (initial_uncached _ _)
    (by
      intro pages w1 _
      rw [servePage_mock]
      refine ⟨_, rfl, ?_⟩
      show bump pages.length 0 < 9223372036854775807
      rw [bump_eq]
      unfold wrapInt
      norm_num
      omega) 2
  ⟨h.1, h.2.1, h.2.2.1, h.2.2.2.1, h.2.2.2.2.1, h.2.2.2.2.2 (by decide)⟩

end Pagerduty
